import Mathlib

/-!
Verification of the redirect worker (`src/index.ts`).

Shallow embedding of the Cloudflare redirect worker.  JavaScript strings are
Lean `String`s, JS numbers that hold timestamps / status codes are `Nat`s, and
the worker's module-level mutable cache (`cachedRules` / `cacheTimestamp`) is
threaded explicitly as a `CacheState`.  The outcome of the single `fetch` of
the external gist is supplied as an oracle value (`FetchResult`), since the
network is outside the program.  `new RegExp` / `String.prototype.match` are
modelled by an executable regex parser and backtracking matcher covering the
ECMAScript constructs reachable from rule patterns (literals, escapes,
character classes, `.`, groups, alternation, greedy/lazy quantifiers,
anchors, word boundaries, back-references); the code's `'^' + p + '$'`
wrapping is modelled textually, so the anchors attach to the outermost
alternatives exactly as in ECMAScript, and matching is leftmost search.
Uncaught platform exceptions — the `SyntaxError` of `new RegExp`, the
`TypeError` of `new URL`, the `RangeError` of `Response.redirect` — are
`.error ()` outcomes of the handler; nothing in the worker catches them.
-/

/-- Model of `interface RedirectRule` from `src/index.ts`.  Optional fields are
`Option`s; `status` is a `Nat` (JSON numbers used as HTTP statuses). -/
structure RedirectRule where
  from_ : String
  to_ : String
  status : Option Nat := none
  preserveQuery : Option Bool := none
  caseSensitive : Option Bool := none
  domain : Option String := none
  deriving Repr, DecidableEq

/-- The worker's module-level cache: `cachedRules` (initially `null`) and
`cacheTimestamp` (initially `0`). -/
structure CacheState where
  cachedRules : Option (List RedirectRule)
  cacheTimestamp : Nat
  deriving Repr, DecidableEq

/-- Model of `const CACHE_TTL = 300000` (5 minutes in milliseconds). -/
def CACHE_TTL : Nat := 300000

/-- Outcome of the single `fetch(env.GIST_CONFIG_URL)` call, seen from the
worker:
* `fetchError` — `fetch` or `response.json()` threw (network error or
  malformed JSON body); lands in the `catch` block;
* `badStatus` — the response arrived but `response.ok` was false;
* `nonArray` — the body parsed as JSON but `Array.isArray` is false;
* `array rs` — the body parsed as a JSON array of rules (possibly empty). -/
inductive FetchResult where
  | fetchError
  | badStatus
  | nonArray
  | array (rules : List RedirectRule)
  deriving Repr, DecidableEq

/-- The failure cases of a refresh attempt: everything except a successful
parse into a non-empty array (`Array.isArray(x) && x.length > 0`). -/
def FetchResult.failed : FetchResult → Bool
  | .fetchError => true
  | .badStatus => true
  | .nonArray => true
  | .array rs => rs.isEmpty

/-- Model of `const DEFAULT_REDIRECTS: RedirectRule[]` from `src/index.ts`. -/
def DEFAULT_REDIRECTS : List RedirectRule :=
  [ { from_ := "/old-page", to_ := "/new-page", status := some 301,
      preserveQuery := some true },
    { from_ := "/blog/*", to_ := "/articles/$1", status := some 301,
      preserveQuery := some true },
    { from_ := "/product/(.*)", to_ := "/products/$1", status := some 301,
      preserveQuery := some true },
    { domain := some "book.carlosguerrero.com", from_ := "/",
      to_ := "https://calendar.app.google/6TBBkNxv1fH7etaj6",
      status := some 301, preserveQuery := some false },
    { domain := some "calendar.carlosguerrero.com", from_ := "/",
      to_ := "https://calendar.app.google/6TBBkNxv1fH7etaj6",
      status := some 301, preserveQuery := some false },
    { domain := some "carlosguerrero.com", from_ := "/calendar",
      to_ := "https://calendar.app.google/6TBBkNxv1fH7etaj6",
      status := some 301, preserveQuery := some false },
    { domain := some "whatsapp.carlosguerrero.com", from_ := "/",
      to_ := "https://wa.me/qr/PVZTFJDU3YOPE1",
      status := some 301, preserveQuery := some false },
    { domain := some "carlosguerrero.com", from_ := "/whatsapp",
      to_ := "https://wa.me/qr/PVZTFJDU3YOPE1",
      status := some 301, preserveQuery := some false },
    { domain := some "carlosguerrero.com", from_ := "/linkedin",
      to_ := "https://www.linkedin.com/in/carlosguerrero-com/",
      status := some 301, preserveQuery := some false },
    { domain := some "carlosguerrero.com", from_ := "/",
      to_ := "https://cv.carlosguerrero.com",
      status := some 301, preserveQuery := some false } ]

/-- Result of the rule-loading section of `fetch` (lines 128–168 of
`src/index.ts`): the active rule set for this request, the cache state after
the request, and how many outbound fetches were attempted (0 or 1). -/
structure LoadResult where
  rules : List RedirectRule
  state : CacheState
  fetches : Nat
  deriving Repr, DecidableEq

/-- The stale-or-empty-cache branch (lines 135–167): attempt one fetch when
`env.GIST_CONFIG_URL` is configured, with fallback `cachedRules || DEFAULT_REDIRECTS`
on every failure; on success cache the new array with timestamp `now`. -/
def fetchBranch (gistUrl : Option String) (st : CacheState) (now : Nat)
    (fr : FetchResult) : LoadResult :=
  match gistUrl with
  | none => ⟨st.cachedRules.getD DEFAULT_REDIRECTS, st, 0⟩
  | some _ =>
    match fr with
    | .array rs =>
      if rs.length > 0 then ⟨rs, ⟨some rs, now⟩, 1⟩
      else ⟨st.cachedRules.getD DEFAULT_REDIRECTS, st, 1⟩
    | _ => ⟨st.cachedRules.getD DEFAULT_REDIRECTS, st, 1⟩

/-- Lines 128–168 of `src/index.ts`: use the cached rules when
`cachedRules && (now - cacheTimestamp) < CACHE_TTL`, otherwise run the
refresh attempt.  (`now - cacheTimestamp` is `Nat` truncated subtraction:
when `now < cacheTimestamp` both JS — negative difference — and this model
consider the cache fresh.) -/
def loadRules (gistUrl : Option String) (st : CacheState) (now : Nat)
    (fr : FetchResult) : LoadResult :=
  match st.cachedRules with
  | some cr =>
    if now - st.cacheTimestamp < CACHE_TTL then ⟨cr, st, 0⟩
    else fetchBranch gistUrl st now fr
  | none => fetchBranch gistUrl st now fr


/-! The regex engine.

Model of the ECMAScript regexes produced by `matchPath` (`src/index.ts`
lines 261–283).  `Rx` is the abstract syntax, `parseRx` the (fuel-driven)
recursive-descent compiler standing in for `new RegExp` — returning `none`
where `new RegExp` would throw a `SyntaxError` — and `rxm` a backtracking
matcher with capture groups standing in for `String.prototype.match`.
Greedy/lazy preference, first-alternative
preference, the "an iteration beyond the minimum that consumes nothing ends
the loop" rule and the clearing of inner captures on each quantifier
iteration follow the ECMAScript `RepeatMatcher` semantics. -/

/-- Perl-style character-class kinds `\d` / `\w` / `\s`. -/
inductive PK where
  | digit
  | word
  | space
  deriving Repr, DecidableEq

/-- One member of a bracket character class. -/
inductive ClsItem where
  | ch (c : Char)
  | rng (lo hi : Char)
  | pc (neg : Bool) (k : PK)
  deriving Repr, DecidableEq

/-- Regex abstract syntax.  `rep min max lazy r` subsumes `*` `+` `?` and
`{m,n}`; `group` carries the ECMAScript group number (0-based here,
`$1` ↦ index 0). -/
inductive Rx where
  | eps
  | char (c : Char)
  | anyc
  | cls (neg : Bool) (items : List ClsItem)
  | cat (a b : Rx)
  | alt (a b : Rx)
  | rep (min : Nat) (max : Option Nat) (lazy : Bool) (a : Rx)
  | group (idx : Nat) (a : Rx)
  | bol
  | eol
  | wordB (neg : Bool)
  | backref (n : Nat)
  deriving Repr, DecidableEq

/-- ECMAScript line terminators (not matched by `.`). -/
def isLineTerm (c : Char) : Bool :=
  c.val = 10 || c.val = 13 || c.val = 0x2028 || c.val = 0x2029

/-- The `\w`-characters: `[A-Za-z0-9_]`. -/
def isWordChar (c : Char) : Bool :=
  c.isAlphanum || c = '_'

/-- The `\s`-characters (the common subset of ECMAScript white space). -/
def isSpaceChar (c : Char) : Bool :=
  c = ' ' || c = '\t' || c = '\n' || c.val = 11 || c.val = 12 ||
  c = '\r' || c.val = 0xa0 || c.val = 0xfeff

def PK.test : PK → Char → Bool
  | .digit => Char.isDigit
  | .word => isWordChar
  | .space => isSpaceChar

/-- Character comparison under the optional `i` flag (modelled by simple
case folding). -/
def charTest (ins : Bool) (pc sc : Char) : Bool :=
  if ins then pc.toLower = sc.toLower else pc = sc

def ClsItem.test (ins : Bool) (sc : Char) : ClsItem → Bool
  | .ch c => charTest ins c sc
  | .rng lo hi =>
    (lo ≤ sc && sc ≤ hi) ||
      (ins && ((lo ≤ sc.toLower && sc.toLower ≤ hi) ||
               (lo ≤ sc.toUpper && sc.toUpper ≤ hi)))
  | .pc neg k => (k.test sc).xor neg

/-- The digits of a decimal literal, as read by `parseInt` /
the quantifier parser. -/
def natOfDigits (ds : List Char) : Nat :=
  ds.foldl (fun a c => a * 10 + (c.toNat - 48)) 0

/-- Outcome of trying to read a quantifier after an atom: not a quantifier
(Annex-B literal `{`), a malformed one (`SyntaxError`, e.g. `{3,2}`), or a
parsed `{min,max}` bound. -/
inductive QuantParse where
  | noQ
  | errQ
  | okQ (min : Nat) (max : Option Nat) (rest : List Char)

def tryQuant : List Char → QuantParse
  | '*' :: rest => .okQ 0 none rest
  | '+' :: rest => .okQ 1 none rest
  | '?' :: rest => .okQ 0 (some 1) rest
  | '{' :: rest =>
    let ds := rest.takeWhile Char.isDigit
    if ds.isEmpty then .noQ
    else
      let n := natOfDigits ds
      match rest.drop ds.length with
      | '}' :: rest' => .okQ n (some n) rest'
      | ',' :: '}' :: rest' => .okQ n none rest'
      | ',' :: rest' =>
        let ds2 := rest'.takeWhile Char.isDigit
        if ds2.isEmpty then .noQ
        else
          match rest'.drop ds2.length with
          | '}' :: rest'' =>
            let m := natOfDigits ds2
            if n ≤ m then .okQ n (some m) rest'' else .errQ
          | _ => .noQ
      | _ => .noQ
  | _ => .noQ

def hexVal? (c : Char) : Option Nat :=
  if c.isDigit then some (c.toNat - 48)
  else if 'a' ≤ c && c ≤ 'f' then some (c.toNat - 87)
  else if 'A' ≤ c && c ≤ 'F' then some (c.toNat - 55)
  else none

def hex2? : List Char → Option (Char × List Char)
  | a :: b :: rest =>
    match hexVal? a, hexVal? b with
    | some x, some y => some (Char.ofNat (x * 16 + y), rest)
    | _, _ => none
  | _ => none

def hex4? : List Char → Option (Char × List Char)
  | a :: b :: c :: d :: rest =>
    match hexVal? a, hexVal? b, hexVal? c, hexVal? d with
    | some x, some y, some z, some w =>
      some (Char.ofNat (((x * 16 + y) * 16 + z) * 16 + w), rest)
    | _, _, _, _ => none
  | _ => none

/-- Single-character control escapes shared by both contexts. -/
def ctrlEsc? : Char → Option Char
  | 'n' => some '\n'
  | 't' => some '\t'
  | 'r' => some '\r'
  | 'f' => some (Char.ofNat 12)
  | 'v' => some (Char.ofNat 11)
  | '0' => some (Char.ofNat 0)
  | _ => none

/-- The `AtomEscape` production (main context, after a `\`): back-references, character
classes, assertions, control/hex escapes, with the Annex-B identity-escape
fallback making any other character literal (this is what sends `\/` to a
plain `/`). -/
def escMain : List Char → Option (Rx × List Char)
  | [] => none
  | c :: rest =>
    if c.isDigit && c ≠ '0' then
      let ds := (c :: rest).takeWhile Char.isDigit
      some (.backref (natOfDigits ds), (c :: rest).drop ds.length)
    else
      match ctrlEsc? c with
      | some ch => some (.char ch, rest)
      | none =>
        match c with
        | 'd' => some (.cls false [.pc false .digit], rest)
        | 'D' => some (.cls true [.pc false .digit], rest)
        | 'w' => some (.cls false [.pc false .word], rest)
        | 'W' => some (.cls true [.pc false .word], rest)
        | 's' => some (.cls false [.pc false .space], rest)
        | 'S' => some (.cls true [.pc false .space], rest)
        | 'b' => some (.wordB false, rest)
        | 'B' => some (.wordB true, rest)
        | 'x' =>
          match hex2? rest with
          | some (ch, rest') => some (.char ch, rest')
          | none => some (.char 'x', rest)
        | 'u' =>
          match hex4? rest with
          | some (ch, rest') => some (.char ch, rest')
          | none => some (.char 'u', rest)
        | _ => some (.char c, rest)

/-- A class atom is either a concrete character (range-capable) or a
Perl-class item. -/
inductive ClsAtom where
  | lit (c : Char)
  | special (it : ClsItem)

/-- The `ClassEscape` production: in a bracket class `\b` is backspace and the identity
escape again covers the rest. -/
def escCls : List Char → Option (ClsAtom × List Char)
  | [] => none
  | c :: rest =>
    match ctrlEsc? c with
    | some ch => some (.lit ch, rest)
    | none =>
      match c with
      | 'd' => some (.special (.pc false .digit), rest)
      | 'D' => some (.special (.pc true .digit), rest)
      | 'w' => some (.special (.pc false .word), rest)
      | 'W' => some (.special (.pc true .word), rest)
      | 's' => some (.special (.pc false .space), rest)
      | 'S' => some (.special (.pc true .space), rest)
      | 'b' => some (.lit (Char.ofNat 8), rest)
      | 'x' =>
        match hex2? rest with
        | some (ch, rest') => some (.lit ch, rest')
        | none => some (.lit 'x', rest)
      | 'u' =>
        match hex4? rest with
        | some (ch, rest') => some (.lit ch, rest')
        | none => some (.lit 'u', rest)
      | _ => some (.lit c, rest)

def parseClsAtom : List Char → Option (ClsAtom × List Char)
  | [] => none
  | '\\' :: rest => escCls rest
  | c :: rest => some (.lit c, rest)

def ClsAtom.item : ClsAtom → ClsItem
  | .lit c => .ch c
  | .special it => it

/-- Body of a bracket class, up to and including the closing `]`; an
out-of-order range (`[z-a]`) or a missing `]` is a `SyntaxError`. -/
def parseClsBody : Nat → List Char → Option (List ClsItem × List Char)
  | 0, _ => none
  | _+1, [] => none
  | f+1, l =>
    match l with
    | ']' :: rest => some ([], rest)
    | _ =>
      match parseClsAtom l with
      | none => none
      | some (a, rest) =>
        match a, rest with
        | .lit c, '-' :: (']' :: _) =>
          match parseClsBody f rest with
          | some (items, rest') => some (.ch c :: items, rest')
          | none => none
        | .lit c, '-' :: rest' =>
          match parseClsAtom rest' with
          | some (.lit c2, rest'') =>
            if c ≤ c2 then
              match parseClsBody f rest'' with
              | some (items, rest3) => some (.rng c c2 :: items, rest3)
              | none => none
            else none
          | some (.special _, _) =>
            match parseClsBody f rest with
            | some (items, rest'') => some (.ch c :: items, rest'')
            | none => none
          | none => none
        | _, _ =>
          match parseClsBody f rest with
          | some (items, rest') => some (a.item :: items, rest')
          | none => none

/-- Assertions cannot be quantified (`^*` is "nothing to repeat"). -/
def Rx.isAssert : Rx → Bool
  | .bol => true
  | .eol => true
  | .wordB _ => true
  | _ => false

/-- Productions of the regex grammar, used as the mode of the single
recursive-descent routine `parseRun` (`Disjunction`, `Alternative`, `Term`,
`Atom`). -/
inductive PMode where
  | alt
  | seq
  | term
  | atom

/-- Fuel-driven recursive descent over the four grammar productions.
Returns the parsed term, the next free group number, and the remaining
input. -/
def parseRun : Nat → PMode → Nat → List Char → Option (Rx × Nat × List Char)
  | 0, _, _, _ => none
  | f+1, .alt, gi, l =>
    match parseRun f .seq gi l with
    | none => none
    | some (r, gi', rest) =>
      match rest with
      | '|' :: rest' =>
        match parseRun f .alt gi' rest' with
        | none => none
        | some (r2, gi'', rest'') => some (.alt r r2, gi'', rest'')
      | _ => some (r, gi', rest)
  | f+1, .seq, gi, l =>
    match l with
    | [] => some (.eps, gi, [])
    | ')' :: _ => some (.eps, gi, l)
    | '|' :: _ => some (.eps, gi, l)
    | _ =>
      match parseRun f .term gi l with
      | none => none
      | some (r, gi', rest) =>
        match parseRun f .seq gi' rest with
        | none => none
        | some (r2, gi'', rest') => some (.cat r r2, gi'', rest')
  | f+1, .term, gi, l =>
    match parseRun f .atom gi l with
    | none => none
    | some (r, gi', rest) =>
      match tryQuant rest with
      | .noQ => some (r, gi', rest)
      | .errQ => none
      | .okQ mn mx rest' =>
        if r.isAssert then none
        else
          match rest' with
          | '?' :: rest'' =>
            match tryQuant rest'' with
            | .noQ => some (.rep mn mx true r, gi', rest'')
            | _ => none
          | _ =>
            match tryQuant rest' with
            | .noQ => some (.rep mn mx false r, gi', rest')
            | _ => none
  | f+1, .atom, gi, l =>
    match l with
    | [] => none
    | '(' :: '?' :: ':' :: rest =>
      match parseRun f .alt gi rest with
      | some (r, gi', ')' :: rest') => some (r, gi', rest')
      | _ => none
    | '(' :: '?' :: _ => none
    | '(' :: rest =>
      match parseRun f .alt (gi + 1) rest with
      | some (r, gi', ')' :: rest') => some (.group gi r, gi', rest')
      | _ => none
    | ')' :: _ => none
    | '[' :: '^' :: rest =>
      match parseClsBody f rest with
      | some (items, rest') => some (.cls true items, gi, rest')
      | none => none
    | '[' :: rest =>
      match parseClsBody f rest with
      | some (items, rest') => some (.cls false items, gi, rest')
      | none => none
    | '\\' :: rest =>
      match escMain rest with
      | some (r, rest') => some (r, gi, rest')
      | none => none
    | '.' :: rest => some (.anyc, gi, rest)
    | '^' :: rest => some (.bol, gi, rest)
    | '$' :: rest => some (.eol, gi, rest)
    | '*' :: _ => none
    | '+' :: _ => none
    | '?' :: _ => none
    | c :: rest => some (.char c, gi, rest)

/-- Model of `new RegExp(src, flags)`: compile the source, also returning the
number of capture groups; `none` models a thrown `SyntaxError`. -/
def parseRx (src : String) : Option (Rx × Nat) :=
  match parseRun ((src.length + 2) * 6) .alt 0 src.data with
  | some (r, gi, []) => some (r, gi)
  | _ => none

/-- Capture array, one slot per group (`undefined` = `none`), modelling
`match.slice(1)`. -/
abbrev Caps := List (Option String)

/-- Indices of the capture groups appearing in a term (used for the
per-iteration capture reset of `RepeatMatcher`). -/
def Rx.groupIdxs : Rx → List Nat
  | .cat a b => a.groupIdxs ++ b.groupIdxs
  | .alt a b => a.groupIdxs ++ b.groupIdxs
  | .rep _ _ _ a => a.groupIdxs
  | .group i a => i :: a.groupIdxs
  | _ => []

def clearCaps (caps : Caps) (idxs : List Nat) : Caps :=
  idxs.foldl (fun cs i => cs.set i none) caps

/-- Fuel bound for the matcher: an upper estimate of the length of any
single backtracking call chain. -/
def Rx.weight : Rx → Nat
  | .cat a b => a.weight + b.weight + 1
  | .alt a b => a.weight + b.weight + 1
  | .rep mn _ _ a => (mn + 1) * (a.weight + 2) + 1
  | .group _ a => a.weight + 1
  | _ => 1

def sliceStr (s : List Char) (i j : Nat) : String :=
  ⟨(s.drop i).take (j - i)⟩

/-- Case-folding-aware check that `t` occurs in `s` starting at `i`
(back-reference matching). -/
def strTestAt (ins : Bool) (s : List Char) : Nat → List Char → Bool
  | _, [] => true
  | i, c :: rest =>
    match s[i]? with
    | some sc => charTest ins c sc && strTestAt ins s (i + 1) rest
    | none => false

def wordAt (s : List Char) (i : Nat) : Bool :=
  match s[i]? with
  | some c => isWordChar c
  | none => false

def atBoundary (s : List Char) (i : Nat) : Bool :=
  (if i = 0 then false else wordAt s (i - 1)) != wordAt s i

/-- Backtracking matcher in continuation style, following the ECMAScript
`Matcher` semantics: `rxm s ins fuel r i caps k` tries to match `r` at
position `i` and hands the next position and updated captures to `k`;
alternatives prefer the left branch, quantifiers are greedy unless `lazy`,
an iteration beyond the minimum must consume input, and each quantifier
iteration first clears the captures of its body. -/
def rxm (s : List Char) (ins : Bool) :
    Nat → Rx → Nat → Caps → (Nat → Caps → Option Caps) → Option Caps
  | 0, _, _, _, _ => none
  | f+1, r, i, caps, k =>
    match r with
    | .eps => k i caps
    | .char c =>
      match s[i]? with
      | some sc => if charTest ins c sc then k (i + 1) caps else none
      | none => none
    | .anyc =>
      match s[i]? with
      | some sc => if isLineTerm sc then none else k (i + 1) caps
      | none => none
    | .cls neg items =>
      match s[i]? with
      | some sc =>
        if (items.any (ClsItem.test ins sc)).xor neg then k (i + 1) caps
        else none
      | none => none
    | .cat a b => rxm s ins f a i caps (fun j cs => rxm s ins f b j cs k)
    | .alt a b =>
      match rxm s ins f a i caps k with
      | some res => some res
      | none => rxm s ins f b i caps k
    | .group idx a =>
      rxm s ins f a i caps (fun j cs => k j (cs.set idx (some (sliceStr s i j))))
    | .bol => if i = 0 then k i caps else none
    | .eol => if i = s.length then k i caps else none
    | .wordB neg =>
      if (if neg then !(atBoundary s i) else atBoundary s i) then k i caps
      else none
    | .backref n =>
      match caps.getD (n - 1) none with
      | none => k i caps
      | some str =>
        if strTestAt ins s i str.data then k (i + str.data.length) caps
        else none
    | .rep mn mx lz a =>
      match mx with
      | some 0 => k i caps
      | _ =>
        let caps' := clearCaps caps a.groupIdxs
        if mn > 0 then
          rxm s ins f a i caps' (fun j cs =>
            rxm s ins f (.rep (mn - 1) (mx.map (· - 1)) lz a) j cs k)
        else if lz then
          match k i caps with
          | some res => some res
          | none =>
            rxm s ins f a i caps' (fun j cs =>
              if i < j then rxm s ins f (.rep 0 (mx.map (· - 1)) lz a) j cs k
              else none)
        else
          match
            rxm s ins f a i caps' (fun j cs =>
              if i < j then rxm s ins f (.rep 0 (mx.map (· - 1)) lz a) j cs k
              else none)
          with
          | some res => some res
          | none => k i caps

/-- Whole-path anchored matching: the body `r` must consume the entire
subject.  This is the semantics the specification's words "anchored to the
full path" describe; the code's actual `'^' + src + '$'` wrapping agrees
with it only when `src` has no top-level alternation (see `matchPath` /
`jsMatchRegex` for the faithful semantics). -/
def rxFullMatch (r : Rx) (ng : Nat) (subject : String) (caseSensitive : Bool) :
    Option Caps :=
  let s := subject.data
  rxm s (!caseSensitive) ((s.length + 2) * (r.weight + 4)) r 0
    (List.replicate ng none)
    (fun i caps => if i = s.length then some caps else none)

/-- One attempt of the regex at start position `i` with the trivial
continuation: ECMAScript `RegExpExec`'s match attempt at a given index (the
match may end anywhere in the subject). -/
def rxTryAt (r : Rx) (ng : Nat) (s : List Char) (ins : Bool) (fuel i : Nat) :
    Option Caps :=
  rxm s ins fuel r i (List.replicate ng none) (fun _ caps => some caps)

/-- Leftmost search: try start positions `i, i+1, …` (`k` further positions
remain), as `RegExpExec` advances `lastIndex` after each failed attempt. -/
def rxSearchAux (r : Rx) (ng : Nat) (s : List Char) (ins : Bool) (fuel : Nat) :
    Nat → Nat → Option Caps
  | i, k =>
    match rxTryAt r ng s ins fuel i with
    | some caps => some caps
    | none =>
      match k with
      | 0 => none
      | k' + 1 => rxSearchAux r ng s ins fuel (i + 1) k'

/-- Model of `subject.match(re)` (non-global): the leftmost match, returning
`match.slice(1)`, or `null`. -/
def jsMatchRegex (r : Rx) (ng : Nat) (subject : String) (caseSensitive : Bool) :
    Option Caps :=
  let s := subject.data
  rxSearchAux r ng s (!caseSensitive) ((s.length + 2) * (r.weight + 4)) 0 s.length

/-- Model of `str.replace(/c/g, repl)` for a single fixed character `c` and a
replacement string without `$`-escapes. -/
def jsReplaceCharAll (s : String) (c : Char) (repl : String) : String :=
  ⟨s.data.flatMap (fun a => if a = c then repl.data else [a])⟩

/-- Lines 262–270 of `src/index.ts`: the regex body `matchPath` builds —
`pattern.replace(/\*/g, '(.*)').replace(/\//g, '\\/')`, except that a
pattern containing both `(` and `)` is used verbatim. -/
def compiledSource (pattern : String) : String :=
  let regexPattern := jsReplaceCharAll (jsReplaceCharAll pattern '*' "(.*)") '/' "\\/"
  if pattern.data.contains '(' && pattern.data.contains ')' then pattern else regexPattern

/-- Line 273: the source string handed to `new RegExp` — the body embedded
textually between `^` and `$`.  The anchors are ordinary tokens of the
compiled regex, so with a top-level alternation in the body they attach
only to the first and last alternatives. -/
def regexSource (pattern : String) : String :=
  "^" ++ compiledSource pattern ++ "$"

/-- Model of `matchPath(path, pattern, caseSensitive)` (`src/index.ts` lines
261–283).  `.error ()` models the uncaught `SyntaxError` of `new RegExp` on
a malformed pattern; otherwise the result is `{ captures: match.slice(1) }`
on a match and `null` on no match. -/
def matchPath (path pattern : String) (caseSensitive : Bool) :
    Except Unit (Option Caps) :=
  match parseRx (regexSource pattern) with
  | none => .error ()
  | some (r, ng) => .ok (jsMatchRegex r ng path caseSensitive)

instance {ε : Type u} {α : Type v} [DecidableEq ε] [DecidableEq α] :
    DecidableEq (Except ε α) := fun x y =>
  match x, y with
  | .ok a, .ok b =>
    if h : a = b then isTrue (by rw [h]) else isFalse (by simp [h])
  | .error a, .error b =>
    if h : a = b then isTrue (by rw [h]) else isFalse (by simp [h])
  | .ok _, .error _ => isFalse (by simp)
  | .error _, .ok _ => isFalse (by simp)

example : matchPath "/old-page" "/old-page" true = .ok (some []) := by decide
example : matchPath "/old-pageX" "/old-page" true = .ok none := by decide
example : matchPath "/blog/my-post" "/blog/*" true = .ok (some [some "my-post"]) := by decide
example : matchPath "/product/x/y" "/product/(.*)" true = .ok (some [some "x/y"]) := by decide
example : matchPath "/" "/" true = .ok (some []) := by decide
example : matchPath "/axb" "/a.b" true = .ok (some []) := by decide
example : matchPath "/aab" "/a+b" true = .ok (some []) := by decide
example : matchPath "/Blog/Post" "/blog/*" false = .ok (some [some "Post"]) := by decide
example : matchPath "/x" "/((" true = .error () := by decide
example : matchPath "/x" "/a(b" true = .error () := by decide
example : matchPath "a/b" "a\\/b" true = .ok none := by decide
example : matchPath "a\\/b" "a\\/b" true = .ok (some []) := by decide
example : matchPath "ax" "(a)|(b)" true = .ok (some [some "a", none]) := by decide
example : matchPath "xb" "(a)|(b)" true = .ok (some [none, some "b"]) := by decide
example : matchPath "x" "(a)|(b)" true = .ok none := by decide

/-! The URL model.

Minimal model of the WHATWG `URL` as used by the worker: hierarchical
`scheme://host/path?query` URLs with the components the worker reads or
writes (`protocol` keeps its trailing `:`, `search` its leading `?`, and an
empty `search` stands for "no query", matching the JS truthiness test
`url.search`).  Fragments, ports, credentials and dot-segment
normalization are not exercised by the worker and are not modelled. -/

structure JsURL where
  protocol : String
  hostname : String
  pathname : String
  search : String
  deriving Repr, DecidableEq

def urlToString (u : JsURL) : String :=
  u.protocol ++ "//" ++ u.hostname ++ u.pathname ++ u.search

/-- Model of `url.origin` (scheme + host). -/
def urlOrigin (u : JsURL) : String :=
  u.protocol ++ "//" ++ u.hostname

def strLower (s : String) : String :=
  ⟨s.data.map Char.toLower⟩

def isSchemeChar (c : Char) : Bool :=
  c.isAlphanum || c = '+' || c = '-' || c = '.'

/-- Valid URL scheme: an alphabetic character followed by letters, digits,
`+`, `-`, `.`. -/
def validScheme : List Char → Bool
  | [] => false
  | c :: cs => c.isAlpha && cs.all isSchemeChar

/-- Split `scheme:rest` at the first `:`, when the part before it is a
valid scheme. -/
def splitHeadScheme (l : List Char) : Option (List Char × List Char) :=
  let sch := l.takeWhile (· ≠ ':')
  match l.drop sch.length with
  | ':' :: rest => if validScheme sch then some (sch, rest) else none
  | _ => none

/-- The WHATWG special schemes: they take the authority form and require a
non-empty host (the `file:`-specific empty-host allowance is outside the
worker's inputs and not modelled). -/
def isSpecialScheme (s : String) : Bool :=
  s = "http" || s = "https" || s = "ws" || s = "wss" || s = "ftp" || s = "file"

/-- Parse `host[/path][?query]` after a special scheme: the host must be
non-empty (`new URL("http://")` throws) and an absent path becomes `/`. -/
def parseHostPath (protocol : String) (rest : List Char) : Option JsURL :=
  let host := rest.takeWhile (fun c => !(c = '/' || c = '?'))
  if host.isEmpty then none
  else
    let tail := rest.drop host.length
    let path := tail.takeWhile (· ≠ '?')
    let qtail := tail.drop path.length
    let search : String :=
      match qtail with
      | '?' :: qq => if qq.isEmpty then "" else ⟨'?' :: qq⟩
      | _ => ""
    let pathname : String := if path.isEmpty then "/" else ⟨path⟩
    some ⟨protocol, strLower ⟨host⟩, pathname, search⟩

/-- Authority parsing for non-special schemes: the host may be empty and an
absent path stays empty. -/
def parseHostPathLax (protocol : String) (rest : List Char) : JsURL :=
  let host := rest.takeWhile (fun c => !(c = '/' || c = '?'))
  let tail := rest.drop host.length
  let path := tail.takeWhile (· ≠ '?')
  let qtail := tail.drop path.length
  let search : String :=
    match qtail with
    | '?' :: qq => if qq.isEmpty then "" else ⟨'?' :: qq⟩
    | _ => ""
  ⟨protocol, strLower ⟨host⟩, ⟨path⟩, search⟩

/-- A parsed destination URL: hierarchical (`scheme://host/path?query`), or
a scheme with an opaque path (`mailto:x`, `tel:1`), which `new URL` also
accepts. -/
inductive DestURL where
  | hier (u : JsURL)
  | plain (protocol pathname search : String)
  deriving Repr, DecidableEq

/-- `redirectUrl.toString()` on a destination. -/
def DestURL.render : DestURL → String
  | .hier u => urlToString u
  | .plain protocol pathname search => protocol ++ pathname ++ search

/-- `redirectUrl.search = s` on a destination. -/
def DestURL.setSearch : DestURL → String → DestURL
  | .hier u, s => .hier { u with search := s }
  | .plain protocol pathname _, s => .plain protocol pathname s

/-- `redirectUrl.search` of a destination. -/
def DestURL.searchOf : DestURL → String
  | .hier u => u.search
  | .plain _ _ s => s

/-- Model of `new URL(t)` without a base.  A special scheme takes the
authority form (any run of leading slashes collapses) and needs a
non-empty host — `new URL("http://")` throws; other schemes accept both
`scheme://authority` and opaque paths (`mailto:x`).  `none` models the
thrown `TypeError`, which sends the worker to the relative-resolution
fallback. -/
def parseAbsoluteURL (t : String) : Option DestURL :=
  match splitHeadScheme t.data with
  | none => none
  | some (sch, rest) =>
    let scheme := strLower ⟨sch⟩
    if isSpecialScheme scheme then
      match parseHostPath (scheme ++ ":")
          (rest.dropWhile (fun c => c = '/' || c = '\\')) with
      | some u => some (.hier u)
      | none => none
    else
      match rest with
      | '/' :: '/' :: rest' => some (.hier (parseHostPathLax (scheme ++ ":") rest'))
      | _ =>
        let p := rest.takeWhile (· ≠ '?')
        let q := rest.drop p.length
        let search : String :=
          match q with
          | '?' :: qq => if qq.isEmpty then "" else ⟨'?' :: qq⟩
          | _ => ""
        some (.plain (scheme ++ ":") ⟨p⟩ search)

/-- Model of `new URL(t, url.origin)`.  Protocol-relative `//host/...`
takes the base scheme (a host is then required: `new URL("//", origin)`
throws); a `t` carrying its own scheme parses absolutely, ignoring the
base — the worker only reaches this call after that parse failed (e.g.
`http://`), so it fails again; anything else resolves as a path against
the origin, made absolute, with an optional query.  `none` models the
thrown `TypeError`, which nothing in the worker catches. -/
def resolveRelativeURL (base : JsURL) (t : String) : Option DestURL :=
  match t.data with
  | '/' :: '/' :: rest =>
    match parseHostPath base.protocol rest with
    | some u => some (.hier u)
    | none => none
  | cs =>
    if (splitHeadScheme cs).isSome then parseAbsoluteURL t
    else
      let p := cs.takeWhile (· ≠ '?')
      let q := cs.drop p.length
      let search : String :=
        match q with
        | '?' :: qq => if qq.isEmpty then "" else ⟨'?' :: qq⟩
        | _ => ""
      let pathname : String :=
        if p.isEmpty then "/"
        else if p.head? = some '/' then ⟨p⟩ else ⟨'/' :: p⟩
      some (.hier ⟨base.protocol, base.hostname, pathname, search⟩)

example : parseAbsoluteURL "https://calendar.app.google/6TBBkNxv1fH7etaj6" =
    some (.hier ⟨"https:", "calendar.app.google", "/6TBBkNxv1fH7etaj6", ""⟩) := by
  decide
example : parseAbsoluteURL "mailto:x@y.z" = some (.plain "mailto:" "x@y.z" "") := by
  decide
example : parseAbsoluteURL "/new-page" = none := by decide
example : parseAbsoluteURL "http://" = none := by decide
example : resolveRelativeURL ⟨"https:", "example.com", "/p", ""⟩ "http://" = none := by
  decide
example : resolveRelativeURL ⟨"https:", "example.com", "/p", ""⟩ "//" = none := by
  decide

/-! Destination building and rule resolution (`fetch`, lines 171–206). -/

/-- Model of `match.captures[parseInt(index) - 1] || ''`: the `n`-th (1-based)
capture, or the empty string when the index is out of range, the capture
is `undefined`, or the capture is empty. -/
def getCapture (caps : Caps) (n : Nat) : String :=
  if n = 0 then "" else (caps.getD (n - 1) none).getD ""

/-- Model of `redirectTo.replace(/\$(\d+)/g, (_, index) => …)`: scan for `$` followed
by a maximal non-empty digit run and splice in the corresponding capture.
Each step consumes at least one character, so fuel equal to the input
length never runs out. -/
def substCapsFuel (caps : Caps) : Nat → List Char → List Char
  | _, [] => []
  | 0, l => l
  | f+1, c :: rest =>
    if c = '$' then
      let ds := rest.takeWhile Char.isDigit
      if ds.isEmpty then c :: substCapsFuel caps f rest
      else
        (getCapture caps (natOfDigits ds)).data ++
          substCapsFuel caps f (rest.drop ds.length)
    else c :: substCapsFuel caps f rest

def substCaptures (caps : Caps) (s : String) : String :=
  ⟨substCapsFuel caps s.data.length s.data⟩

/-- Model of `rule.status || 301` (`0` is falsy). -/
def effectiveStatus (r : RedirectRule) : Nat :=
  match r.status with
  | some s => if s = 0 then 301 else s
  | none => 301

/-- Lines 188–196: substitute captures into `rule.to` and parse the result
as an absolute URL, or else resolve it against the request origin — the
destination exactly as the `to` template produced it, before any query
handling.  `none` models the uncaught `TypeError` thrown when both `new
URL` constructions fail. -/
def destTemplateUrl (url : JsURL) (r : RedirectRule) (caps : Caps) :
    Option DestURL :=
  let redirectTo := substCaptures caps r.to_
  match parseAbsoluteURL redirectTo with
  | some u => some u
  | none => resolveRelativeURL url redirectTo

/-- Lines 198–201: overwrite the destination query with the request's one
unless `preserveQuery` is explicitly `false` or the request query is
empty (the overwrite runs only when the destination was built at all). -/
def buildRedirectUrl (url : JsURL) (r : RedirectRule) (caps : Caps) :
    Option DestURL :=
  if r.preserveQuery ≠ some false ∧ url.search ≠ "" then
    (destTemplateUrl url r caps).map (fun d => d.setSearch url.search)
  else destTemplateUrl url r caps

/-- Model of `rule.domain && rule.domain !== url.hostname` — the rule is skipped
only when `domain` is present, truthy (non-empty) and different from the
request hostname. -/
def domainSkips (host : String) (r : RedirectRule) : Bool :=
  match r.domain with
  | some d => !(d == "") && !(d == host)
  | none => false

/-- Whether `new RegExp` accepts the regex `matchPath` builds for this
rule's `from` pattern. -/
def ruleCompiles (r : RedirectRule) : Bool :=
  (parseRx (regexSource r.from_)).isSome

/-- The rule loop of `fetch` (lines 171–206): first rule whose domain guard
passes and whose pattern matches wins; a pattern `new RegExp` rejects
aborts the whole pass with the uncaught `SyntaxError`. -/
def resolveRules (host path : String) :
    List RedirectRule → Except Unit (Option (RedirectRule × Caps))
  | [] => .ok none
  | r :: rest =>
    if domainSkips host r then resolveRules host path rest
    else
      match matchPath path r.from_ (!(r.caseSensitive == some false)) with
      | .error e => .error e
      | .ok none => resolveRules host path rest
      | .ok (some caps) => .ok (some (r, caps))

/-! The request handler (`fetch`, lines 110–255). -/

/-- The environment bindings the worker reads (all optional strings). -/
structure Env where
  FORCE_HTTPS : Option String := none
  WWW_REDIRECT : Option String := none
  GIST_CONFIG_URL : Option String := none
  ADMIN_KEY : Option String := none
  deriving Repr, DecidableEq

/-- The parts of the incoming request the worker reads. -/
structure RequestModel where
  url : JsURL
  method : String := "GET"
  authorization : Option String := none
  deriving Repr, DecidableEq

/-- The responses the worker can produce; bodies of the non-redirect
surfaces are abstracted to their identity (health JSON, 401 text, rules
dump, 404 page). -/
inductive ResponseModel where
  | redirect (location : String) (status : Nat)
  | healthCheck
  | unauthorized
  | rulesDump (rules : List RedirectRule)
  | notFoundPage (path : String)
  deriving Repr, DecidableEq

/-- HTTP status of a modelled response. -/
def ResponseModel.statusCode : ResponseModel → Nat
  | .redirect _ s => s
  | .healthCheck => 200
  | .unauthorized => 401
  | .rulesDump _ => 200
  | .notFoundPage _ => 404

structure HandleResult where
  response : ResponseModel
  state : CacheState
  fetches : Nat
  deriving Repr, DecidableEq

def strStartsWith (s p : String) : Bool :=
  p.data.isPrefixOf s.data

def strDrop (s : String) (n : Nat) : String :=
  ⟨s.data.drop n⟩

/-- Lines 208–254: the health-check, admin and 404 surfaces, reached only
after the rule loop found no match. -/
def staticFallback (env : Env) (req : RequestModel) (rules : List RedirectRule) :
    ResponseModel :=
  if req.url.pathname == "/health" then .healthCheck
  else if req.url.pathname == "/admin/rules" && req.method == "GET" then
    match env.ADMIN_KEY with
    | some k =>
      if k ≠ "" ∧ req.authorization ≠ some ("Bearer " ++ k) then .unauthorized
      else .rulesDump rules
    | none => .rulesDump rules
  else .notFoundPage req.url.pathname

/-- The status codes `Response.redirect` accepts. -/
def validRedirectStatus (s : Nat) : Bool :=
  s = 301 || s = 302 || s = 303 || s = 307 || s = 308

/-- Model of `Response.redirect(url, status)`: a redirect response, or the
`RangeError` it throws when the status is not one of 301, 302, 303, 307,
308. -/
def responseRedirect (location : String) (status : Nat) :
    Except Unit ResponseModel :=
  if validRedirectStatus status then .ok (.redirect location status)
  else .error ()

/-- The whole `fetch` handler (`src/index.ts` lines 110–255), with the
fetch outcome `fr` and the clock `now` supplied as oracles.  `.error ()`
models an uncaught exception escaping the handler (the Workers runtime
then answers with a 5xx error page). -/
def handleRequest (env : Env) (st : CacheState) (now : Nat) (fr : FetchResult)
    (req : RequestModel) : Except Unit HandleResult :=
  let url := req.url
  if url.protocol == "http:" && !(env.FORCE_HTTPS == some "false") then
    match responseRedirect (urlToString { url with protocol := "https:" }) 301 with
    | .ok resp => .ok ⟨resp, st, 0⟩
    | .error e => .error e
  else if env.WWW_REDIRECT == some "remove" && strStartsWith url.hostname "www." then
    match responseRedirect (urlToString { url with hostname := strDrop url.hostname 4 }) 301 with
    | .ok resp => .ok ⟨resp, st, 0⟩
    | .error e => .error e
  else if env.WWW_REDIRECT == some "add" && !(strStartsWith url.hostname "www.") then
    match responseRedirect (urlToString { url with hostname := "www." ++ url.hostname }) 301 with
    | .ok resp => .ok ⟨resp, st, 0⟩
    | .error e => .error e
  else
    let lr := loadRules env.GIST_CONFIG_URL st now fr
    match resolveRules url.hostname url.pathname lr.rules with
    | .error e => .error e
    | .ok (some (r, caps)) =>
      match buildRedirectUrl url r caps with
      | none => .error ()
      | some d =>
        match responseRedirect d.render (effectiveStatus r) with
        | .ok resp => .ok ⟨resp, lr.state, lr.fetches⟩
        | .error e => .error e
    | .ok none =>
      .ok ⟨staticFallback env req lr.rules, lr.state, lr.fetches⟩

def emptyCache : CacheState := ⟨none, 0⟩

example :
    handleRequest {} emptyCache 0 .fetchError
      ⟨⟨"http:", "example.com", "/test", ""⟩, "GET", none⟩ =
      .ok ⟨.redirect "https://example.com/test" 301, emptyCache, 0⟩ := by decide

example :
    handleRequest {} emptyCache 0 .fetchError
      ⟨⟨"https:", "example.com", "/old-page", "?test=123"⟩, "GET", none⟩ =
      .ok ⟨.redirect "https://example.com/new-page?test=123" 301, emptyCache, 0⟩ := by
  decide

example :
    handleRequest {} emptyCache 0 .fetchError
      ⟨⟨"https:", "book.carlosguerrero.com", "/", ""⟩, "GET", none⟩ =
      .ok ⟨.redirect "https://calendar.app.google/6TBBkNxv1fH7etaj6" 301,
           emptyCache, 0⟩ := by decide

example :
    handleRequest {} emptyCache 0 .fetchError
      ⟨⟨"https:", "example.com", "/nonexistent", ""⟩, "GET", none⟩ =
      .ok ⟨.notFoundPage "/nonexistent", emptyCache, 0⟩ := by decide

example :
    handleRequest {} emptyCache 0 .fetchError
      ⟨⟨"https:", "example.com", "/health", ""⟩, "GET", none⟩ =
      .ok ⟨.healthCheck, emptyCache, 0⟩ := by decide

example :
    handleRequest { WWW_REDIRECT := some "remove" } emptyCache 0 .fetchError
      ⟨⟨"https:", "www.example.com", "/test", ""⟩, "GET", none⟩ =
      .ok ⟨.redirect "https://example.com/test" 301, emptyCache, 0⟩ := by decide

example :
    handleRequest { GIST_CONFIG_URL := some "https://gist.test/raw" } emptyCache 0
      (.array [{ from_ := "/test-redirect", to_ := "/redirected",
                 status := some 302, preserveQuery := some true }])
      ⟨⟨"https:", "example.com", "/test-redirect", "?param=value"⟩, "GET", none⟩ =
      .ok ⟨.redirect "https://example.com/redirected?param=value" 302,
           ⟨some [{ from_ := "/test-redirect", to_ := "/redirected",
                    status := some 302, preserveQuery := some true }], 0⟩, 1⟩ := by
  decide

/-! Claim theorems. -/

/-- Claim C2 — For every call of the rule provider: a cached set younger than
300000 ms is returned with no fetch attempted; with an absent or stale
cache and a configured source URL exactly one fetch is attempted, and on
success (a parsed JSON array with at least one element) the cache is
replaced by the new set with timestamp `now` and the new set is
returned. -/
theorem cache_ttl_and_refresh (u : String) (st : CacheState) (now : Nat)
    (fr : FetchResult) :
    (∀ cr, st.cachedRules = some cr → now - st.cacheTimestamp < CACHE_TTL →
        loadRules (some u) st now fr = ⟨cr, st, 0⟩) ∧
    ((st.cachedRules = none ∨ CACHE_TTL ≤ now - st.cacheTimestamp) →
        (loadRules (some u) st now fr).fetches = 1 ∧
        ∀ rs, fr = .array rs → rs ≠ [] →
          loadRules (some u) st now fr = ⟨rs, ⟨some rs, now⟩, 1⟩) := by
  constructor
  · intro cr hcr hfresh
    simp [loadRules, hcr, hfresh]
  · intro hstale
    have hfb : loadRules (some u) st now fr = fetchBranch (some u) st now fr := by
      cases hcr : st.cachedRules with
      | none => simp [loadRules, hcr]
      | some cr =>
        rcases hstale with h | h
        · rw [hcr] at h; cases h
        · simp [loadRules, hcr, Nat.not_lt.mpr h]
    rw [hfb]
    refine ⟨?_, ?_⟩
    · cases fr with
      | array rs => simp only [fetchBranch]; split <;> rfl
      | fetchError => rfl
      | badStatus => rfl
      | nonArray => rfl
    · intro rs hrs hne
      subst hrs
      simp [fetchBranch, List.length_pos.mpr hne]

/-- Witness for C2 at the P5 scenario: a cache fetched at `T = 100000` is
served without a fetch at `T + 299999`, and a fetch at `T + 300001`
succeeds and replaces it. -/
theorem cache_ttl_and_refresh_witness :
    loadRules (some "https://gist.example/raw") ⟨some DEFAULT_REDIRECTS, 100000⟩
        399999 .badStatus = ⟨DEFAULT_REDIRECTS, ⟨some DEFAULT_REDIRECTS, 100000⟩, 0⟩ ∧
    loadRules (some "https://gist.example/raw") ⟨some DEFAULT_REDIRECTS, 100000⟩
        400001 (.array [{ from_ := "/n", to_ := "/m" }]) =
      ⟨[{ from_ := "/n", to_ := "/m" }],
       ⟨some [{ from_ := "/n", to_ := "/m" }], 400001⟩, 1⟩ := by
  constructor
  · exact (cache_ttl_and_refresh "https://gist.example/raw"
      ⟨some DEFAULT_REDIRECTS, 100000⟩ 399999 .badStatus).1 DEFAULT_REDIRECTS rfl
      (by decide)
  · exact ((cache_ttl_and_refresh "https://gist.example/raw"
      ⟨some DEFAULT_REDIRECTS, 100000⟩ 400001
      (.array [{ from_ := "/n", to_ := "/m" }])).2 (Or.inr (by decide))).2 _ rfl
      (by decide)

/-- Claim C3 — A failed refresh (unreachable source, non-success status,
unparsable, empty or non-array body) leaves the cache untouched and serves
the previously cached set, or the compiled-in defaults when none exists;
moreover for any fetch outcome whatsoever the cache either stays unchanged
or becomes exactly the non-empty fetched array — the default set is never
written into it. -/
theorem failed_refresh_preserves_cache (gist : Option String) (st : CacheState)
    (now : Nat) (fr : FetchResult) (h : fr.failed = true) :
    (loadRules gist st now fr).rules = st.cachedRules.getD DEFAULT_REDIRECTS ∧
    (loadRules gist st now fr).state = st ∧
    ∀ fr', (loadRules gist st now fr').state = st ∨
      ∃ rs, fr' = .array rs ∧ rs ≠ [] ∧
        (loadRules gist st now fr').state = ⟨some rs, now⟩ := by
  have hfb : ∀ fr'', fr''.failed = true →
      fetchBranch gist st now fr'' =
        ⟨st.cachedRules.getD DEFAULT_REDIRECTS, st,
         if gist.isSome then 1 else 0⟩ := by
    intro fr'' h''
    cases gist <;> cases fr'' <;>
      simp_all [fetchBranch, FetchResult.failed, List.isEmpty_iff]
  have hload : ∀ fr'', fr''.failed = true →
      (loadRules gist st now fr'').rules = st.cachedRules.getD DEFAULT_REDIRECTS ∧
      (loadRules gist st now fr'').state = st := by
    intro fr'' h''
    cases hcr : st.cachedRules with
    | none => simp [loadRules, hcr, hfb fr'' h'']
    | some cr =>
      by_cases hf : now - st.cacheTimestamp < CACHE_TTL
      · simp [loadRules, hcr, hf]
      · simp [loadRules, hcr, hf, hfb fr'' h'']
  refine ⟨(hload fr h).1, (hload fr h).2, ?_⟩
  intro fr'
  by_cases h' : fr'.failed = true
  · exact Or.inl (hload fr' h').2
  · have hrs : ∃ rs, fr' = .array rs ∧ rs ≠ [] := by
      cases fr' with
      | array rs =>
        exact ⟨rs, rfl, by simpa [FetchResult.failed, List.isEmpty_iff] using h'⟩
      | fetchError => simp [FetchResult.failed] at h'
      | badStatus => simp [FetchResult.failed] at h'
      | nonArray => simp [FetchResult.failed] at h'
    obtain ⟨rs, rfl, hne⟩ := hrs
    cases gist with
    | none =>
      refine Or.inl ?_
      cases hcr : st.cachedRules with
      | none => simp [loadRules, hcr, fetchBranch]
      | some cr =>
        by_cases hf : now - st.cacheTimestamp < CACHE_TTL <;>
          simp [loadRules, hcr, hf, fetchBranch]
    | some u =>
      cases hcr : st.cachedRules with
      | none =>
        refine Or.inr ⟨rs, rfl, hne, ?_⟩
        simp [loadRules, hcr, fetchBranch, List.length_pos.mpr hne]
      | some cr =>
        by_cases hf : now - st.cacheTimestamp < CACHE_TTL
        · exact Or.inl (by simp [loadRules, hcr, hf])
        · refine Or.inr ⟨rs, rfl, hne, ?_⟩
          simp [loadRules, hcr, hf, fetchBranch, List.length_pos.mpr hne]

/-- Witness for C3: a stale cache plus a non-array body serves the cached
rule and leaves the cache alone. -/
theorem failed_refresh_preserves_cache_witness :
    (loadRules (some "https://gist.example/raw")
        ⟨some [{ from_ := "/c", to_ := "/d" }], 0⟩ 400000 .nonArray).rules =
      [{ from_ := "/c", to_ := "/d" }] ∧
    (loadRules (some "https://gist.example/raw")
        ⟨some [{ from_ := "/c", to_ := "/d" }], 0⟩ 400000 .nonArray).state =
      ⟨some [{ from_ := "/c", to_ := "/d" }], 0⟩ := by
  have h := failed_refresh_preserves_cache (some "https://gist.example/raw")
    ⟨some [{ from_ := "/c", to_ := "/d" }], 0⟩ 400000 .nonArray rfl
  exact ⟨h.1, h.2.1⟩

/-- Claim C8 — An insecure request while `FORCE_HTTPS` is not `"false"` (its
default) is answered immediately with a 301 to the same host, path and
query under `https:`, with the cache untouched and no fetch attempted —
before www handling, rule resolution and every fallback surface, whatever
the rules and fetch outcome are. -/
theorem force_https_short_circuits (env : Env) (st : CacheState) (now : Nat)
    (fr : FetchResult) (req : RequestModel)
    (hproto : req.url.protocol = "http:")
    (hcfg : env.FORCE_HTTPS ≠ some "false") :
    handleRequest env st now fr req =
      .ok ⟨.redirect (urlToString { req.url with protocol := "https:" }) 301,
           st, 0⟩ := by
  have hb : (env.FORCE_HTTPS == some "false") = false := by
    simpa using hcfg
  simp [handleRequest, hproto, hb, responseRedirect, validRedirectStatus]

/-- Witness for C8 (scenario A plus a query): `http://example.com/test?q=1`
becomes a 301 to `https://example.com/test?q=1`. -/
theorem force_https_short_circuits_witness :
    handleRequest {} emptyCache 5 .badStatus
        ⟨⟨"http:", "example.com", "/test", "?q=1"⟩, "GET", none⟩ =
      .ok ⟨.redirect (urlToString ⟨"https:", "example.com", "/test", "?q=1"⟩) 301,
           emptyCache, 0⟩ :=
  force_https_short_circuits {} emptyCache 5 .badStatus
    ⟨⟨"http:", "example.com", "/test", "?q=1"⟩, "GET", none⟩ rfl (by decide)

/-- Claim C7 — On a matched rule, when `preserveQuery` is not explicitly
`false` and the request query is non-empty, the destination's query is set
to exactly the request's query (overwriting whatever the `to` template
carried); otherwise the destination is exactly what the `to` template
produced. -/
theorem preserve_query_overwrites (url : JsURL) (r : RedirectRule) (caps : Caps) :
    ((r.preserveQuery ≠ some false ∧ url.search ≠ "") →
        buildRedirectUrl url r caps =
          (destTemplateUrl url r caps).map (fun d => d.setSearch url.search)) ∧
    ((r.preserveQuery = some false ∨ url.search = "") →
        buildRedirectUrl url r caps = destTemplateUrl url r caps) ∧
    (∀ d, (r.preserveQuery ≠ some false ∧ url.search ≠ "") →
        buildRedirectUrl url r caps = some d → d.searchOf = url.search) := by
  refine ⟨?_, ?_, ?_⟩
  · intro h
    simp [buildRedirectUrl, h]
  · intro h
    have hn : ¬(r.preserveQuery ≠ some false ∧ url.search ≠ "") := by
      rcases h with h | h <;> simp [h]
    simp [buildRedirectUrl, hn]
  · intro d h hd
    rw [buildRedirectUrl, if_pos h] at hd
    obtain ⟨d0, _, rfl⟩ := Option.map_eq_some.mp hd
    cases d0 <;> rfl

/-- Witness for C7 (scenario P3, with a query already present in `to`):
the request query `?test=123` overwrites the template's `?x=9`. -/
theorem preserve_query_overwrites_witness :
    buildRedirectUrl ⟨"https:", "example.com", "/old-page", "?test=123"⟩
        { from_ := "/old-page", to_ := "/new-page?x=9" } [] =
      (destTemplateUrl ⟨"https:", "example.com", "/old-page", "?test=123"⟩
          { from_ := "/old-page", to_ := "/new-page?x=9" } []).map
        (fun d => d.setSearch "?test=123") ∧
    buildRedirectUrl ⟨"https:", "example.com", "/old-page", "?test=123"⟩
        { from_ := "/old-page", to_ := "/new-page?x=9" } [] =
      some (.hier ⟨"https:", "example.com", "/new-page", "?test=123"⟩) := by
  refine ⟨(preserve_query_overwrites
    ⟨"https:", "example.com", "/old-page", "?test=123"⟩
    { from_ := "/old-page", to_ := "/new-page?x=9" } []).1
    ⟨by decide, by decide⟩, ?_⟩
  decide

/-- The substitution scanner ignores any fuel at or above the input
length. -/
theorem substCapsFuel_irrel (caps : Caps) :
    ∀ f₁ f₂ l, l.length ≤ f₁ → l.length ≤ f₂ →
      substCapsFuel caps f₁ l = substCapsFuel caps f₂ l := by
  intro f₁
  induction f₁ with
  | zero =>
    intro f₂ l h₁ h₂
    have hl : l = [] := List.eq_nil_of_length_eq_zero (Nat.le_zero.mp h₁)
    subst hl
    cases f₂ <;> rfl
  | succ f ih =>
    intro f₂ l h₁ h₂
    cases l with
    | nil => cases f₂ <;> rfl
    | cons c rest =>
      cases f₂ with
      | zero => simp at h₂
      | succ g =>
        have hr₁ : rest.length ≤ f := by simpa using h₁
        have hr₂ : rest.length ≤ g := by simpa using h₂
        by_cases hc : c = '$'
        · subst hc
          by_cases hds : (rest.takeWhile Char.isDigit).isEmpty
          · simp only [substCapsFuel, if_pos rfl, hds, if_true]
            exact congrArg _ (ih g rest hr₁ hr₂)
          · simp only [substCapsFuel, if_pos rfl, hds, if_false]
            refine congrArg _ (ih g _ ?_ ?_) <;>
              simp only [List.length_drop] <;> omega
        · simp only [substCapsFuel, if_neg hc]
          exact congrArg _ (ih g rest hr₁ hr₂)

/-- The scan `takeWhile` stops exactly at the end of an all-`p` block when the next
character fails `p`. -/
theorem takeWhile_append_block {p : Char → Bool} :
    ∀ ds post : List Char, (∀ c ∈ ds, p c = true) →
      (∀ c, post.head? = some c → p c = false) →
      (ds ++ post).takeWhile p = ds := by
  intro ds
  induction ds with
  | nil =>
    intro post _ hpost
    cases post with
    | nil => rfl
    | cons c tl => simp [List.takeWhile_cons, hpost c rfl]
  | cons d ds ih =>
    intro post hds hpost
    have hd : p d = true := hds d (List.mem_cons_self d ds)
    simp [List.takeWhile_cons, hd, ih post (fun c hc => hds c (List.mem_cons_of_mem d hc)) hpost]

/-- Claim C6 — Destination building replaces each placeholder `$N` (a `$`
followed by a maximal digit run) by the `N`-th capture of the match
result — the empty string when that index does not exist — and in
particular `/blog/*` with `to = "/articles/$1"` sends `/blog/my-post` to
`/articles/my-post`. -/
theorem subst_replaces_placeholders (caps : Caps) :
    (∀ pre ds post : List Char,
      (∀ c ∈ pre, c ≠ '$') → ds ≠ [] → (∀ c ∈ ds, c.isDigit = true) →
      (∀ c, post.head? = some c → c.isDigit = false) →
      substCaptures caps ⟨pre ++ '$' :: ds ++ post⟩ =
        ⟨pre ++ (getCapture caps (natOfDigits ds)).data ++
          (substCaptures caps ⟨post⟩).data⟩) ∧
    matchPath "/blog/my-post" "/blog/*" true = .ok (some [some "my-post"]) ∧
    substCaptures [some "my-post"] "/articles/$1" = "/articles/my-post" ∧
    substCaptures [] "/articles/$1" = "/articles/" := by
  refine ⟨?_, by decide, by decide, by decide⟩
  intro pre
  induction pre with
  | nil =>
    intro ds post _ hne hds hpost
    have htw : List.takeWhile Char.isDigit (ds ++ post) = ds :=
      takeWhile_append_block ds post hds hpost
    have hfi : substCapsFuel caps (ds ++ post).length post =
        substCapsFuel caps post.length post :=
      substCapsFuel_irrel caps _ _ post (by simp) (Nat.le_refl _)
    simp only [List.nil_append, substCaptures]
    simp only [substCapsFuel, List.length_cons, List.append_eq, htw,
      List.drop_left, if_true]
    rw [if_neg (by simp [List.isEmpty_iff, hne]), hfi]
  | cons a pre ih =>
    intro ds post hpre hne hds hpost
    have ha : a ≠ '$' := hpre a (List.mem_cons_self a pre)
    have hrec := ih ds post (fun c hc => hpre c (List.mem_cons_of_mem a hc)) hne hds hpost
    have hrec' : substCapsFuel caps (pre ++ '$' :: ds ++ post).length
        (pre ++ '$' :: ds ++ post) =
        pre ++ ((getCapture caps (natOfDigits ds)).data ++
          (substCaptures caps ⟨post⟩).data) := by
      have h := congrArg String.data hrec
      simpa [substCaptures, List.append_assoc] using h
    simp only [List.cons_append, substCaptures]
    simp only [substCapsFuel, List.length_cons]
    rw [if_neg ha]
    have hgoal := congrArg (List.cons a) hrec'
    simp only [substCaptures] at hgoal ⊢
    rw [hgoal]
    simp [List.append_assoc]

/-- Witness for C6: splicing `$1` between a literal prefix and a literal
tail. -/
theorem subst_replaces_placeholders_witness :
    substCaptures [some "42"] ⟨"/a/".data ++ '$' :: ['1'] ++ "/tail".data⟩ =
      ⟨"/a/".data ++ "42".data ++ (substCaptures [some "42"] "/tail").data⟩ :=
  (subst_replaces_placeholders [some "42"]).1 "/a/".data ['1'] "/tail".data
    (by decide) (by decide) (by decide) (by decide)

/-- Character-wise statement of the wildcard-branch translation: `*` ↦
`(.*)`, `/` ↦ `\/`, everything else verbatim. -/
def translitChar (c : Char) : List Char :=
  if c = '*' then "(.*)".data
  else if c = '/' then ['\\', '/']
  else [c]

theorem flatMap_flatMap_chars (f g : Char → List Char) :
    ∀ l : List Char, (l.flatMap f).flatMap g = l.flatMap (fun c => (f c).flatMap g) := by
  intro l
  induction l with
  | nil => rfl
  | cons c rest ih =>
    simp only [List.flatMap_cons, List.flatMap_append, ih]

/-- The two successive global `replace` calls of `matchPath` amount to the
single character-wise translation `translitChar` (the replacement `(.*)`
contains no `/`, so the second pass leaves it alone). -/
theorem compiled_wildcard_source (pattern : String) :
    jsReplaceCharAll (jsReplaceCharAll pattern '*' "(.*)") '/' "\\/" =
      ⟨pattern.data.flatMap translitChar⟩ := by
  unfold jsReplaceCharAll
  refine congrArg String.mk ?_
  rw [flatMap_flatMap_chars]
  refine List.flatMap_congr ?_
  intro c _
  by_cases h1 : c = '*'
  · subst h1; decide
  · by_cases h2 : c = '/'
    · subst h2; decide
    · simp [translitChar, h1, h2]

/-- The path matcher as the amended claim C4 describes it: the regex branch
for a pattern containing both `(` and `)`, otherwise the character-wise
wildcard translation (`*` ↦ `(.*)`, `/` ↦ `\/`); the source is embedded
textually between `^` and `$`, compiled, and matched by leftmost search. -/
def matchPathSpec (path pattern : String) (caseSensitive : Bool) :
    Except Unit (Option Caps) :=
  let src := if pattern.data.contains '(' && pattern.data.contains ')' then pattern
             else ⟨pattern.data.flatMap translitChar⟩
  match parseRx ("^" ++ src ++ "$") with
  | none => .error ()
  | some (r, ng) => .ok (jsMatchRegex r ng path caseSensitive)

/-- The matcher exactly as the frozen claim C4 words it: only `*` is
translated (no `/` rewrite), and the compiled pattern is "matched, also
anchored, against the entire path" — a whole-path match, no-match whenever
the pattern does not match the whole path. -/
def matchPathClaimed (path pattern : String) (caseSensitive : Bool) :
    Except Unit (Option Caps) :=
  let src := if pattern.data.contains '(' && pattern.data.contains ')' then pattern
             else jsReplaceCharAll pattern '*' "(.*)"
  match parseRx src with
  | none => .error ()
  | some (r, ng) => .ok (rxFullMatch r ng path caseSensitive)

/-- Claim C4, counterexample — two divergences between `matchPath` and the
claim's description.  First, the missing `/` rewrite: on pattern `a\/b`
(backslash, then slash) the claimed matcher accepts path `a/b` (`\/` is an
identity escape), while the code turns `\`+`/` into an escaped *backslash*
plus `/` and rejects it, accepting `a\/b` instead.  Second, the anchoring:
on pattern `(a)|(b)` the claimed whole-path match rejects path `ax`, while
the code's `/^(a)|(b)$/` matches it through the `^(a)` alternative. -/
theorem wildcard_translation_counterexample :
    (matchPathClaimed "a/b" "a\\/b" true = .ok (some []) ∧
     matchPath "a/b" "a\\/b" true = .ok none ∧
     matchPath "a\\/b" "a\\/b" true = .ok (some [])) ∧
    (matchPathClaimed "ax" "(a)|(b)" true = .ok none ∧
     matchPath "ax" "(a)|(b)" true = .ok (some [some "a", none])) :=
  ⟨⟨by decide, by decide, by decide⟩, ⟨by decide, by decide⟩⟩

/-- Claim C4, amended — `matchPath` decides the pattern kind by the presence
of both `(` and `)`: such patterns are used verbatim, all others get the
character-wise translation `*` ↦ greedy capturing `(.*)` **and** `/` ↦
`\/`; the resulting source is embedded textually as `^source$`, compiled,
and matched by leftmost search — the anchors bind the outermost
alternatives, so a pattern without top-level alternation must match the
entire path — yielding the ordered captures (full match excluded) or
no-match. -/
theorem matchPath_eq_spec (path pattern : String) (caseSensitive : Bool) :
    matchPath path pattern caseSensitive = matchPathSpec path pattern caseSensitive := by
  unfold matchPath matchPathSpec regexSource compiledSource
  rw [compiled_wildcard_source]

/-- Claim C9 — The wildcard branch rewrites nothing but `*` (and `/`): every
other character, regex metacharacters such as `.` and `+` included, reaches
the regex engine verbatim and keeps its regex meaning — `/a.b` matches
`/axb`, `/a+b` matches `/aab`. -/
theorem metachars_not_escaped (pattern : String)
    (h : (pattern.data.contains '(' && pattern.data.contains ')') = false) :
    compiledSource pattern = ⟨pattern.data.flatMap translitChar⟩ ∧
    (∀ c, c ≠ '*' → c ≠ '/' → translitChar c = [c]) ∧
    matchPath "/axb" "/a.b" true = .ok (some []) ∧
    matchPath "/aab" "/a+b" true = .ok (some []) ∧
    matchPath "/a.b" "/a.b" true = .ok (some []) := by
  refine ⟨?_, ?_, by decide, by decide, by decide⟩
  · unfold compiledSource
    rw [h, compiled_wildcard_source]
    simp
  · intro c h1 h2
    simp [translitChar, h1, h2]

/-- Witness for C9 at pattern `/a.b`. -/
theorem metachars_not_escaped_witness :
    compiledSource "/a.b" = ⟨"/a.b".data.flatMap translitChar⟩ :=
  (metachars_not_escaped "/a.b" (by decide)).1

/-- The outcome of `matchPath` for one rule, flattened to an `Option`
(meaningful whenever the rule's pattern compiles). -/
def ruleCaps (path : String) (r : RedirectRule) : Option Caps :=
  match matchPath path r.from_ (!(r.caseSensitive == some false)) with
  | .ok o => o
  | .error _ => none

/-- Domain guard passed and pattern matched: this rule produces the
decision for the request. -/
def ruleActive (host path : String) (r : RedirectRule) : Bool :=
  !domainSkips host r && (ruleCaps path r).isSome

theorem matchPath_ok_of_compiles (path : String) (r : RedirectRule)
    (h : ruleCompiles r = true) :
    matchPath path r.from_ (!(r.caseSensitive == some false)) =
      .ok (ruleCaps path r) := by
  unfold ruleCompiles at h
  unfold ruleCaps matchPath
  cases hp : parseRx (regexSource r.from_) with
  | none => rw [hp] at h; simp at h
  | some p => simp

/-- Shared characterization of the rule loop: with every pattern compiling,
`resolveRules` returns exactly the first rule (in list order) that is
active for the request, paired with its captures. -/
theorem resolveRules_find_characterization (host path : String) :
    ∀ rules : List RedirectRule, (∀ r ∈ rules, ruleCompiles r = true) →
      resolveRules host path rules =
        .ok ((rules.find? (ruleActive host path)).bind
          (fun r => (ruleCaps path r).map (fun caps => (r, caps)))) := by
  intro rules
  induction rules with
  | nil => intro _; rfl
  | cons r rest ih =>
    intro hc
    have hr : ruleCompiles r = true := hc r (List.mem_cons_self r rest)
    have hrest : ∀ x ∈ rest, ruleCompiles x = true :=
      fun x hx => hc x (List.mem_cons_of_mem r hx)
    have hmp := matchPath_ok_of_compiles path r hr
    by_cases hskip : domainSkips host r = true
    · have hact : ruleActive host path r = false := by
        simp [ruleActive, hskip]
      rw [List.find?_cons_of_neg _ (by simp [hact])]
      simp only [resolveRules, hskip, if_true]
      exact ih hrest
    · have hskip' : domainSkips host r = false := by
        simpa using hskip
      cases hcaps : ruleCaps path r with
      | none =>
        have hact : ruleActive host path r = false := by
          simp [ruleActive, hcaps]
        rw [List.find?_cons_of_neg _ (by simp [hact])]
        simp only [resolveRules, hskip', Bool.false_eq_true, if_false, hmp, hcaps]
        exact ih hrest
      | some caps =>
        have hact : ruleActive host path r = true := by
          simp [ruleActive, hskip', hcaps]
        rw [List.find?_cons_of_pos _ hact]
        simp only [resolveRules, hskip', Bool.false_eq_true, if_false, hmp]
        simp [hcaps]

/-- With every pattern compiling, the rule loop cannot throw. -/
theorem resolveRules_ok_of_compiles (host path : String)
    (rules : List RedirectRule) (hc : ∀ r ∈ rules, ruleCompiles r = true) :
    ∃ o, resolveRules host path rules = .ok o :=
  ⟨_, resolveRules_find_characterization host path rules hc⟩

/-- Claim C1, counterexample — A rule whose `domain` field is set to the
empty string, differing from the hostname `example.com`, still produces
the decision: `rule.domain && …` treats `""` as unset, so the rule is not
skipped, where the claim would have the second rule win. -/
theorem empty_domain_not_skipped :
    ({ from_ := "/p", to_ := "/a", domain := some "" } : RedirectRule).domain.isSome = true ∧
    ({ from_ := "/p", to_ := "/a", domain := some "" } : RedirectRule).domain ≠
      some "example.com" ∧
    resolveRules "example.com" "/p"
        [{ from_ := "/p", to_ := "/a", domain := some "" },
         { from_ := "/p", to_ := "/b" }] =
      .ok (some ({ from_ := "/p", to_ := "/a", domain := some "" }, [])) :=
  ⟨rfl, by decide, by decide⟩

/-- Claim C1, amended — Provided every pattern in the set compiles, the
resolver returns the decision data of the earliest rule whose domain guard
passes and whose pattern matches the path, ignoring all later matching
rules; the domain guard skips a rule exactly when its `domain` is present,
non-empty and different from the request's hostname under exact string
equality (an empty-string `domain` does not scope the rule). -/
theorem first_match_wins (host path : String) (rules : List RedirectRule)
    (hc : ∀ r ∈ rules, ruleCompiles r = true) :
    resolveRules host path rules =
      .ok ((rules.find? (ruleActive host path)).bind
        (fun r => (ruleCaps path r).map (fun caps => (r, caps)))) :=
  resolveRules_find_characterization host path rules hc

/-- Witness for C1: two overlapping `/blog/*` rules — the earlier one
wins. -/
theorem first_match_wins_witness :
    resolveRules "example.com" "/blog/x"
        [{ from_ := "/blog/*", to_ := "/articles/$1" },
         { from_ := "/blog/*", to_ := "/other/$1" }] =
      .ok (some ({ from_ := "/blog/*", to_ := "/articles/$1" }, [some "x"])) :=
  (first_match_wins "example.com" "/blog/x"
    [{ from_ := "/blog/*", to_ := "/articles/$1" },
     { from_ := "/blog/*", to_ := "/other/$1" }] (by decide)).trans (by decide)

/-- Helper: a successful `Response.redirect` is the redirect response at
that location and status. -/
theorem responseRedirect_ok (location : String) (status : Nat)
    (resp : ResponseModel) (h : responseRedirect location status = .ok resp) :
    resp = .redirect location status := by
  unfold responseRedirect at h
  split at h
  · exact (Except.ok.inj h).symm
  · cases h

/-- Claim C5, counterexample — three errors the worker does not contain,
each aborting the request instead of falling through to the 404 default:
a malformed pattern (`new RegExp` throws a `SyntaxError` inside the rule
loop), a matched rule whose destination `http://` makes both `new URL`
constructions throw a `TypeError`, and a matched rule whose status 200
makes `Response.redirect` throw a `RangeError`. -/
theorem resolution_errors_uncontained :
    (ruleCompiles { from_ := "/((", to_ := "/x" } = false ∧
     resolveRules "example.com" "/any" [{ from_ := "/((", to_ := "/x" }] =
       .error () ∧
     handleRequest { GIST_CONFIG_URL := some "https://gist.example/raw" }
        emptyCache 0 (.array [{ from_ := "/((", to_ := "/x" }])
        ⟨⟨"https:", "example.com", "/any", ""⟩, "GET", none⟩ = .error ()) ∧
    (ruleCompiles { from_ := "/broken", to_ := "http://" } = true ∧
     handleRequest { GIST_CONFIG_URL := some "https://gist.example/raw" }
        emptyCache 0 (.array [{ from_ := "/broken", to_ := "http://" }])
        ⟨⟨"https:", "example.com", "/broken", ""⟩, "GET", none⟩ = .error ()) ∧
    handleRequest { GIST_CONFIG_URL := some "https://gist.example/raw" }
        emptyCache 0
        (.array [{ from_ := "/ok", to_ := "/dest", status := some 200 }])
        ⟨⟨"https:", "example.com", "/ok", ""⟩, "GET", none⟩ = .error () :=
  ⟨⟨by decide, by decide, by decide⟩, ⟨by decide, by decide⟩, by decide⟩

/-- Claim C5, amended — errors arising during rule resolution are *not*
contained: a malformed `from` regex, a matched rule whose substituted `to`
parses neither as an absolute URL nor relative to the origin, and a
matched rule whose effective status is not a valid redirect code each
abort the request with an uncaught exception (a 5xx), as the
counterexample shows.  When every pattern of the active set compiles and
every match the resolver can produce builds its destination and carries a
valid (or defaulted) status, handling never aborts: the handler produces a
response, the worst case being the "no rule matched" 404 fallback. -/
theorem no_uncaught_error_when_rules_wellformed (env : Env) (st : CacheState)
    (now : Nat) (fr : FetchResult) (req : RequestModel)
    (hc : ∀ r ∈ (loadRules env.GIST_CONFIG_URL st now fr).rules,
      ruleCompiles r = true)
    (hb : ∀ r caps,
      resolveRules req.url.hostname req.url.pathname
          (loadRules env.GIST_CONFIG_URL st now fr).rules = .ok (some (r, caps)) →
      (buildRedirectUrl req.url r caps).isSome = true ∧
        validRedirectStatus (effectiveStatus r) = true) :
    ∃ res, handleRequest env st now fr req = .ok res := by
  by_cases h1 : (req.url.protocol == "http:" && !(env.FORCE_HTTPS == some "false")) = true
  · exact ⟨_, by simp [handleRequest, h1, responseRedirect, validRedirectStatus]; rfl⟩
  by_cases h2 : (env.WWW_REDIRECT == some "remove" &&
      strStartsWith req.url.hostname "www.") = true
  · exact ⟨_, by simp [handleRequest, h1, h2, responseRedirect, validRedirectStatus]; rfl⟩
  by_cases h3 : (env.WWW_REDIRECT == some "add" &&
      !(strStartsWith req.url.hostname "www.")) = true
  · exact ⟨_, by simp [handleRequest, h1, h2, h3, responseRedirect, validRedirectStatus]; rfl⟩
  obtain ⟨o, ho⟩ :=
    resolveRules_ok_of_compiles req.url.hostname req.url.pathname _ hc
  cases o with
  | none => exact ⟨_, by simp [handleRequest, h1, h2, h3, ho]; rfl⟩
  | some rc =>
    obtain ⟨r, caps⟩ := rc
    obtain ⟨hbs, hvs⟩ := hb r caps ho
    obtain ⟨d, hd⟩ := Option.isSome_iff_exists.mp hbs
    exact ⟨_, by
      simp [handleRequest, h1, h2, h3, ho, hd, responseRedirect, hvs]; rfl⟩

/-- Witness for C5: with the compiled-in defaults active and no rule
matching, an arbitrary request is answered. -/
theorem no_uncaught_error_witness :
    ∃ res, handleRequest {} emptyCache 0 .fetchError
        ⟨⟨"https:", "example.com", "/whatever", ""⟩, "GET", none⟩ = .ok res :=
  no_uncaught_error_when_rules_wellformed {} emptyCache 0 .fetchError
    ⟨⟨"https:", "example.com", "/whatever", ""⟩, "GET", none⟩ (by decide)
    (by
      intro r caps h
      have h2 := Eq.trans
        (Eq.symm (show resolveRules "example.com" "/whatever"
            (loadRules ({} : Env).GIST_CONFIG_URL emptyCache 0 .fetchError).rules =
            .ok none by decide)) h
      simp at h2)

/-- Claim C10, counterexample — "if any rule in the active set matches …
the response is the redirect built from that rule" fails: with a malformed
pattern ahead of a rule matching `/health`, with a matching rule whose
destination cannot be built, or with a matching rule whose status is not a
redirect code, the worker aborts with an uncaught exception — neither that
rule's redirect nor any fallback surface answers. -/
theorem matching_rule_aborted_counterexample :
    ((ruleCaps "/health" { from_ := "/health", to_ := "/maintenance" }).isSome = true ∧
     handleRequest { GIST_CONFIG_URL := some "https://gist.example/raw" }
        emptyCache 0
        (.array [{ from_ := "/((", to_ := "/x" },
                 { from_ := "/health", to_ := "/maintenance" }])
        ⟨⟨"https:", "example.com", "/health", ""⟩, "GET", none⟩ = .error ()) ∧
    handleRequest { GIST_CONFIG_URL := some "https://gist.example/raw" }
        emptyCache 0 (.array [{ from_ := "/go", to_ := "//" }])
        ⟨⟨"https:", "example.com", "/go", ""⟩, "GET", none⟩ = .error () ∧
    handleRequest { GIST_CONFIG_URL := some "https://gist.example/raw" }
        emptyCache 0
        (.array [{ from_ := "/go", to_ := "/dest", status := some 404 }])
        ⟨⟨"https:", "example.com", "/go", ""⟩, "GET", none⟩ = .error () :=
  ⟨⟨by decide, by decide⟩, by decide, by decide⟩

/-- Claim C10, amended — Once preprocessing passes (none of the three
early-redirect conditions fires), the rule pass runs before the static
surfaces: whenever it completes with a match whose destination builds and
whose status `Response.redirect` accepts, the response is that rule's
redirect — for `/health` and `/admin/rules` as much as for any other path
— while the health/admin/404 surfaces answer exactly when the pass
completed finding no match; an uncaught throw during the pass (malformed
pattern, unbuildable destination, invalid status) aborts the request
instead of reaching either outcome. -/
theorem rules_shadow_static_surfaces (env : Env) (st : CacheState) (now : Nat)
    (fr : FetchResult) (req : RequestModel)
    (h1 : (req.url.protocol == "http:" && !(env.FORCE_HTTPS == some "false")) = false)
    (h2 : (env.WWW_REDIRECT == some "remove" &&
      strStartsWith req.url.hostname "www.") = false)
    (h3 : (env.WWW_REDIRECT == some "add" &&
      !(strStartsWith req.url.hostname "www.")) = false) :
    (∀ r caps d,
      resolveRules req.url.hostname req.url.pathname
          (loadRules env.GIST_CONFIG_URL st now fr).rules = .ok (some (r, caps)) →
      buildRedirectUrl req.url r caps = some d →
      validRedirectStatus (effectiveStatus r) = true →
      handleRequest env st now fr req =
        .ok ⟨.redirect d.render (effectiveStatus r),
             (loadRules env.GIST_CONFIG_URL st now fr).state,
             (loadRules env.GIST_CONFIG_URL st now fr).fetches⟩) ∧
    (resolveRules req.url.hostname req.url.pathname
        (loadRules env.GIST_CONFIG_URL st now fr).rules = .ok none →
      handleRequest env st now fr req =
        .ok ⟨staticFallback env req (loadRules env.GIST_CONFIG_URL st now fr).rules,
             (loadRules env.GIST_CONFIG_URL st now fr).state,
             (loadRules env.GIST_CONFIG_URL st now fr).fetches⟩) ∧
    (∀ hr, handleRequest env st now fr req = .ok hr →
      (hr.response = .healthCheck ∨ hr.response = .unauthorized ∨
        (∃ rs, hr.response = .rulesDump rs) ∨ (∃ p, hr.response = .notFoundPage p)) →
      resolveRules req.url.hostname req.url.pathname
        (loadRules env.GIST_CONFIG_URL st now fr).rules = .ok none) := by
  refine ⟨?_, ?_, ?_⟩
  · intro r caps d hres hbuild hvalid
    simp [handleRequest, h1, h2, h3, hres, hbuild, responseRedirect, hvalid]
  · intro hres
    simp [handleRequest, h1, h2, h3, hres]
  · intro hr hok hsurf
    cases hres : resolveRules req.url.hostname req.url.pathname
        (loadRules env.GIST_CONFIG_URL st now fr).rules with
    | error e =>
      have herr : handleRequest env st now fr req = .error e := by
        simp [handleRequest, h1, h2, h3, hres]
      rw [herr] at hok
      cases hok
    | ok o =>
      cases o with
      | none => rfl
      | some rc =>
        obtain ⟨r, caps⟩ := rc
        cases hb : buildRedirectUrl req.url r caps with
        | none =>
          have herr : handleRequest env st now fr req = .error () := by
            simp [handleRequest, h1, h2, h3, hres, hb]
          rw [herr] at hok
          cases hok
        | some d =>
          cases hrr : responseRedirect d.render (effectiveStatus r) with
          | error e =>
            have herr : handleRequest env st now fr req = .error e := by
              simp [handleRequest, h1, h2, h3, hres, hb, hrr]
            rw [herr] at hok
            cases hok
          | ok resp =>
            have hred : handleRequest env st now fr req =
                .ok ⟨resp, (loadRules env.GIST_CONFIG_URL st now fr).state,
                     (loadRules env.GIST_CONFIG_URL st now fr).fetches⟩ := by
              simp [handleRequest, h1, h2, h3, hres, hb, hrr]
            rw [hred] at hok
            cases hok
            have hresp := responseRedirect_ok d.render (effectiveStatus r) resp hrr
            subst hresp
            rcases hsurf with h | h | ⟨rs, h⟩ | ⟨p, h⟩ <;> simp at h

/-- Witness for C10: a fetched rule on `/health` shadows the health
endpoint. -/
theorem rules_shadow_static_surfaces_witness :
    handleRequest { GIST_CONFIG_URL := some "https://gist.example/raw" }
        emptyCache 0 (.array [{ from_ := "/health", to_ := "/maintenance" }])
        ⟨⟨"https:", "example.com", "/health", ""⟩, "GET", none⟩ =
      .ok ⟨.redirect "https://example.com/maintenance" 301,
           ⟨some [{ from_ := "/health", to_ := "/maintenance" }], 0⟩, 1⟩ :=
  ((rules_shadow_static_surfaces
      { GIST_CONFIG_URL := some "https://gist.example/raw" } emptyCache 0
      (.array [{ from_ := "/health", to_ := "/maintenance" }])
      ⟨⟨"https:", "example.com", "/health", ""⟩, "GET", none⟩
      (by decide) (by decide) (by decide)).1
    { from_ := "/health", to_ := "/maintenance" } []
    (.hier ⟨"https:", "example.com", "/maintenance", ""⟩)
    (by decide) (by decide) (by decide)).trans (by decide)

